import Mathlib

/-!
AudioViz, `libAudioViz.cpp`.

A shallow embedding of the session functions of `src/src/libAudioViz.cpp`
(`init_audio`, `get_audio_intensities`, `cleanup_audio`) together with the
properties of its behaviour.

Modelling conventions.

* The four module-level variables (`sndFile`, `mpg123`, `channels`, `rate`) form the
  record `Session`; a pointer is `none` exactly when it is `nullptr`.
* The decoder libraries (libsndfile, mpg123) are external. Whatever they answer during
  one call is an argument of the embedded function (`DecoderEnv`, `ReadEnv`), so every
  statement quantifies over every answer the libraries may give.
* C `float` arithmetic is idealised: the functions are generic in a division ring `F` and
  in the square-root function on it. Statements about numeric values instantiate `F` with
  the real numbers and `Real.sqrt`, i.e. they speak about exact real arithmetic and ignore
  rounding.
* `int` arithmetic is 32-bit two's complement (`wrap32`). Signed overflow is undefined in
  C++; the reduction only matters for the products of the indeterminate `samples` entries on
  the MP3 path, and the squares of `short` values are shown not to overflow.
* Arrays are functions from the index to the element. `sf_read_short` is asked for 2048
  items and never returns more, so the reads of `buffer[i]` for `i < readCount` stay inside
  the array.
-/

namespace AudioViz

/-! ## Data model -/

/-- Number of intensity bars (`#define MAX_BARS 50` in `libAudioViz.h`). -/
def MAX_BARS : Nat := 50

/-- The module-level variables of `libAudioViz.cpp`. A handle is `none` when the pointer is
`nullptr`, and `some h` when it holds the (non-null) address `h`. -/
structure Session where
  sndFile : Option Nat
  mpg123 : Option Nat
  channels : Int
  rate : Int
deriving DecidableEq

/-- The state at program start: `sndFile = nullptr`, `mpg123 = nullptr`, `channels = 0`,
`rate = 0`. -/
def Session.initial : Session :=
  { sndFile := none, mpg123 := none, channels := 0, rate := 0 }

/-- Answers of the decoder libraries during one call of `init_audio`. -/
structure DecoderEnv where
  /-- whether `mpg123_init()` returned `MPG123_OK` -/
  mpg123_init_ok : Bool
  /-- the pointer returned by `mpg123_new(NULL, NULL)` -/
  mpg123_new : Option Nat
  /-- whether `mpg123_open(mpg123, file_path)` returned `MPG123_OK` -/
  mpg123_open_ok : Bool
  /-- the `(rate, channels)` pair stored by `mpg123_getformat`, `none` when it stores nothing -/
  mpg123_getformat : Option (Int × Int)
  /-- the pointer returned by `sf_open(file_path, SFM_READ, &sfinfo)` -/
  sf_open : Option Nat
  /-- the field `sfinfo.samplerate` after `sf_open` -/
  sfinfo_samplerate : Int
  /-- the field `sfinfo.channels` after `sf_open` -/
  sfinfo_channels : Int

/-- What `mpg123_read(mpg123, buffer, sizeof(buffer), &bytes)` delivered. -/
structure Mp3Read where
  /-- the return code (`MPG123_OK`, `MPG123_DONE`, an error code) -/
  ret : Int
  /-- the value stored in `bytes` -/
  bytes : Nat
  /-- the content of `unsigned char buffer[4096]` after the call -/
  buffer : Nat → Nat

/-- What `sf_read_short(sndFile, buffer, 2048)` delivered. -/
structure WavRead where
  /-- the returned item count, as stored in `int readCount` -/
  readCount : Int
  /-- the content of `short buffer[2048]` after the call -/
  buffer : Nat → Int

/-- Everything one call of `get_audio_intensities` takes from outside: the answers of the two
read functions and the indeterminate content of the local array `int32_t samples[2048]`,
which the function reads without ever having stored to it. -/
structure ReadEnv where
  mp3 : Mp3Read
  samples : Nat → Int
  wav : WavRead

/-- The caller's array `float intensities[MAX_BARS]`. -/
abbrev Frame (F : Type) := Fin MAX_BARS → F

/-- The calls into the decoder libraries that release a resource. -/
inductive LibCall where
  | mpg123_close (h : Nat)
  | mpg123_delete (h : Nat)
  | mpg123_exit
  | sf_close (h : Nat)
deriving DecidableEq

/-! ## `strstr` -/

/-- Whether the second string is an initial segment of the first. -/
def startsWith : List Char → List Char → Bool
  | _, [] => true
  | [], _ :: _ => false
  | c :: cs, d :: ds => c == d && startsWith cs ds

/-- The C library function `strstr(haystack, needle)`: the offset of the first occurrence
of `needle` in `haystack`, `none` for a null result. -/
def strstr : List Char → List Char → Option Nat
  | [], needle => if needle.isEmpty then some 0 else none
  | c :: cs, needle =>
    if startsWith (c :: cs) needle then some 0
    else (strstr cs needle).map (· + 1)

/-! ## `init_audio` -/

/-- The function `init_audio(file_path)`: the returned status and the module variables
after the call. -/
def init_audio (file_path : String) (env : DecoderEnv) (s : Session) : Int × Session :=
  if (strstr file_path.toList ".mp3".toList).isSome then
    if !env.mpg123_init_ok then (-1, s)
    else
      let s1 := { s with mpg123 := env.mpg123_new }
      if !env.mpg123_open_ok then (-1, s1)
      else
        match env.mpg123_getformat with
        | some (r, c) => (0, { s1 with rate := r, channels := c })
        | none => (0, s1)
  else if (strstr file_path.toList ".wav".toList).isSome then
    let s1 := { s with sndFile := env.sf_open }
    match env.sf_open with
    | none => (-1, s1)
    | some _ => (0, { s1 with rate := env.sfinfo_samplerate, channels := env.sfinfo_channels })
  else (0, s)

/-! ## `get_audio_intensities` -/

/-- Reduction of an integer to the 32-bit two's complement range, the value of an `int`
expression. -/
def wrap32 (x : Int) : Int := (x + 2147483648) % 4294967296 - 2147483648

/-- A value of type `short`. -/
def isInt16 (x : Int) : Prop := -32768 ≤ x ∧ x ≤ 32767

instance (x : Int) : Decidable (isInt16 x) := by unfold isInt16; infer_instance

/-- The loop `for (int i = 0; i < count; i++) rms += a[i] * a[i];` started with `rms = 0`:
the product is an `int`, the accumulator a `float`. -/
def sumSquares {F : Type} [DivisionRing F] (a : Nat → Int) (count : Nat) : F :=
  (List.range count).foldl (fun rms i => rms + ((wrap32 (a i * a i) : Int) : F)) 0

/-- The loop `for (int i = 0; i < MAX_BARS; i++) intensities[i] = v;`. -/
def writeBars {F : Type} (v : F) (intensities : Frame F) : Frame F :=
  (List.finRange MAX_BARS).foldl (fun fr i => Function.update fr i v) intensities

/-- The function `get_audio_intensities(intensities)`: the content of the caller's array
after the call. The module variables are only read. -/
def get_audio_intensities {F : Type} [DivisionRing F] (fsqrt : F → F)
    (s : Session) (env : ReadEnv) (intensities : Frame F) : Frame F :=
  if s.mpg123.isSome then
    -- `mpg123_read` fills `buffer` and `bytes` (`env.mp3`); neither is used afterwards
    let rms : F := sumSquares env.samples 2048
    let rms := fsqrt (rms / 2048)
    writeBars (rms / 1000) intensities
  else if s.sndFile.isSome then
    let readCount := env.wav.readCount
    if readCount ≤ 0 then intensities
    else
      let rms : F := sumSquares env.wav.buffer readCount.toNat
      let rms := fsqrt (rms / (readCount : F))
      writeBars (rms / 1000) intensities
  else intensities

/-! ## `cleanup_audio` -/

/-- The function `cleanup_audio()`: the module variables after the call and the release
calls it made, in order. -/
def cleanup_audio (s : Session) : Session × List LibCall :=
  let mp3Calls : List LibCall :=
    match s.mpg123 with
    | some h => [LibCall.mpg123_close h, LibCall.mpg123_delete h, LibCall.mpg123_exit]
    | none => []
  let wavCalls : List LibCall :=
    match s.sndFile with
    | some h => [LibCall.sf_close h]
    | none => []
  (s, mp3Calls ++ wavCalls)

/-! ## Call sequences -/

/-- One call of the public interface, with the answers of the decoder libraries. -/
inductive Op where
  | init (file_path : String) (env : DecoderEnv)
  | get
  | cleanup

/-- The module variables after one call. -/
def step (s : Session) : Op → Session
  | Op.init file_path env => (init_audio file_path env s).2
  | Op.get => s
  | Op.cleanup => (cleanup_audio s).1

/-- The module variables after a sequence of calls. -/
def run (s : Session) (ops : List Op) : Session := ops.foldl step s

/-! ## Concrete inputs -/

/-- A session with an open MP3 decoder at address 1. -/
def mp3Session : Session := { sndFile := none, mpg123 := some 1, channels := 2, rate := 44100 }

/-- A session with an open WAV file at address 2. -/
def wavSession : Session := { sndFile := some 2, mpg123 := none, channels := 2, rate := 44100 }

/-- Library answers where every call succeeds. -/
def okEnv : DecoderEnv :=
  { mpg123_init_ok := true, mpg123_new := some 1, mpg123_open_ok := true,
    mpg123_getformat := some (44100, 2), sf_open := some 2,
    sfinfo_samplerate := 44100, sfinfo_channels := 2 }

/-- Library answers where `mpg123_new` yields a handle and `mpg123_open` fails, as for a
missing file. -/
def openFailEnv : DecoderEnv :=
  { mpg123_init_ok := true, mpg123_new := some 1, mpg123_open_ok := false,
    mpg123_getformat := none, sf_open := none,
    sfinfo_samplerate := 0, sfinfo_channels := 0 }

/-- A read at end of stream: `mpg123_read` returns `MPG123_DONE` (-12) with zero bytes,
`sf_read_short` returns 0; every array holds zeros. -/
def eofEnv : ReadEnv :=
  { mp3 := { ret := -12, bytes := 0, buffer := fun _ => 0 },
    samples := fun _ => 0,
    wav := { readCount := 0, buffer := fun _ => 0 } }

/-- A read that delivers a full block of silence (4096 zero bytes from `mpg123_read`,
2048 zero samples from `sf_read_short`) while the local array `samples` holds 1000 in
every entry. -/
def silenceEnv : ReadEnv :=
  { mp3 := { ret := 0, bytes := 4096, buffer := fun _ => 0 },
    samples := fun _ => 1000,
    wav := { readCount := 2048, buffer := fun _ => 0 } }

/-- A WAV read of `n` samples, each equal to `v`. -/
def constWavEnv (n : Int) (v : Int) : ReadEnv :=
  { mp3 := { ret := 0, bytes := 0, buffer := fun _ => 0 },
    samples := fun _ => 0,
    wav := { readCount := n, buffer := fun _ => v } }

/-- A WAV read of the two samples 3 and 4. -/
def twoSampleEnv : ReadEnv :=
  { mp3 := { ret := 0, bytes := 0, buffer := fun _ => 0 },
    samples := fun _ => 0,
    wav := { readCount := 2, buffer := fun i => if i = 0 then 3 else 4 } }

/-! ## Auxiliary facts -/

/-- The initial-segment test agrees with the list relation. -/
theorem startsWith_iff (l p : List Char) : startsWith l p = true ↔ p <+: l := by
  induction l generalizing p with
  | nil =>
    cases p with
    | nil => simp [startsWith]
    | cons d ds => simp [startsWith]
  | cons c cs ih =>
    cases p with
    | nil => simp [startsWith]
    | cons d ds =>
      simp only [startsWith, Bool.and_eq_true, beq_iff_eq, ih, List.cons_prefix_cons]
      constructor
      · rintro ⟨h1, h2⟩; exact ⟨h1.symm, h2⟩
      · rintro ⟨h1, h2⟩; exact ⟨h1.symm, h2⟩

/-- The embedded `strstr` finds an occurrence exactly when the needle is a contiguous part
of the haystack. -/
theorem strstr_isSome_iff (h n : List Char) : (strstr h n).isSome = true ↔ n <:+: h := by
  induction h with
  | nil =>
    cases n with
    | nil => simp [strstr]
    | cons d ds => simp [strstr]
  | cons c cs ih =>
    have hdef : strstr (c :: cs) n
        = if startsWith (c :: cs) n then some 0 else (strstr cs n).map (· + 1) := by
      rw [strstr]
    rw [List.infix_cons_iff, ← ih, ← startsWith_iff, hdef]
    by_cases hs : startsWith (c :: cs) n = true
    · simp [hs]
    · simp [hs]

/-- For a path that contains neither `.mp3` nor `.wav`, `init_audio` returns 0 and changes
no module variable. -/
theorem init_audio_no_known_extension (file_path : String) (env : DecoderEnv) (s : Session)
    (hmp3 : ¬ ".mp3".toList <:+: file_path.toList)
    (hwav : ¬ ".wav".toList <:+: file_path.toList) :
    init_audio file_path env s = (0, s) := by
  unfold init_audio
  rw [if_neg (by rw [strstr_isSome_iff]; exact hmp3),
    if_neg (by rw [strstr_isSome_iff]; exact hwav)]

/-- The bar loop stores the value in every slot. -/
theorem writeBars_apply {F : Type} (v : F) (fr : Frame F) (j : Fin MAX_BARS) :
    writeBars v fr j = v := by
  have key : ∀ (l : List (Fin MAX_BARS)) (g : Frame F),
      l.foldl (fun fr i => Function.update fr i v) g j = if j ∈ l then v else g j := by
    intro l
    induction l with
    | nil => intro g; simp
    | cons a t ih =>
      intro g
      rw [List.foldl_cons, ih]
      by_cases hj : j ∈ t
      · simp [hj]
      · by_cases hja : j = a
        · subst hja; simp [hj]
        · simp [hj, hja, Function.update_noteq hja]
  unfold writeBars
  rw [key]
  simp [List.mem_finRange]

/-- The accumulation loop computes the sum of the `int` products. -/
theorem sumSquares_eq_sum {F : Type} [DivisionRing F] (a : Nat → Int) (count : Nat) :
    (sumSquares a count : F)
      = ∑ i in Finset.range count, ((wrap32 (a i * a i) : Int) : F) := by
  unfold sumSquares
  induction count with
  | zero => simp
  | succ n ih => rw [List.range_succ, List.foldl_append, ih, Finset.sum_range_succ]; simp

/-- The square of a `short` is at most `2^30`. -/
theorem sq_le_of_isInt16 {x : Int} (h : isInt16 x) : 0 ≤ x * x ∧ x * x ≤ 1073741824 := by
  obtain ⟨h1, h2⟩ := h
  constructor
  · exact mul_self_nonneg x
  · nlinarith

/-- The square of a `short` is computed without `int` overflow. -/
theorem wrap32_sq_of_isInt16 {x : Int} (h : isInt16 x) : wrap32 (x * x) = x * x := by
  obtain ⟨h0, h1⟩ := sq_le_of_isInt16 h
  unfold wrap32
  rw [Int.emod_eq_of_lt (by omega) (by omega)]
  omega

/-- Without a decoder handle the frame is returned as it was received. -/
theorem get_audio_intensities_no_handle {F : Type} [DivisionRing F] (fsqrt : F → F)
    (s : Session) (env : ReadEnv) (fr : Frame F)
    (hm : s.mpg123 = none) (hs : s.sndFile = none) :
    get_audio_intensities fsqrt s env fr = fr := by
  simp [get_audio_intensities, hm, hs]

/-- In a WAV session a read count of zero or less returns the frame as it was received. -/
theorem get_audio_intensities_wav_stall {F : Type} [DivisionRing F] (fsqrt : F → F)
    (s : Session) (env : ReadEnv) (fr : Frame F)
    (hm : s.mpg123 = none) (hn : env.wav.readCount ≤ 0) :
    get_audio_intensities fsqrt s env fr = fr := by
  unfold get_audio_intensities
  simp only [hm, Option.isSome_none, Bool.false_eq_true, if_false]
  split
  · simp [hn]
  · rfl

/-- In an MP3 session every slot receives the value computed from the local array. -/
theorem get_audio_intensities_mp3_apply {F : Type} [DivisionRing F] (fsqrt : F → F)
    (s : Session) (env : ReadEnv) (fr : Frame F) (j : Fin MAX_BARS)
    (hm : s.mpg123 ≠ none) :
    get_audio_intensities fsqrt s env fr j
      = fsqrt ((∑ i in Finset.range 2048,
          ((wrap32 (env.samples i * env.samples i) : Int) : F)) / 2048) / 1000 := by
  have h : s.mpg123.isSome = true := Option.isSome_iff_ne_none.mpr hm
  unfold get_audio_intensities
  simp only [h, if_true]
  rw [writeBars_apply, sumSquares_eq_sum]

/-- In a WAV session with a positive read count every slot receives the value computed
from the first `readCount` entries of the buffer. -/
theorem get_audio_intensities_wav_apply {F : Type} [DivisionRing F] (fsqrt : F → F)
    (s : Session) (env : ReadEnv) (fr : Frame F) (j : Fin MAX_BARS)
    (hm : s.mpg123 = none) (hs : s.sndFile ≠ none) (hn : 0 < env.wav.readCount) :
    get_audio_intensities fsqrt s env fr j
      = fsqrt ((∑ i in Finset.range env.wav.readCount.toNat,
          ((wrap32 (env.wav.buffer i * env.wav.buffer i) : Int) : F))
            / (env.wav.readCount : F)) / 1000 := by
  have h : s.sndFile.isSome = true := Option.isSome_iff_ne_none.mpr hs
  unfold get_audio_intensities
  simp only [hm, h, Option.isSome_none, Bool.false_eq_true, if_false, if_true, not_le.mpr hn]
  rw [writeBars_apply, sumSquares_eq_sum]

/-- The sum accumulated over a block of `short` values is the real sum of squares. -/
theorem sum_wrap32_sq_eq (b : Nat → Int) (n : Nat) (h16 : ∀ i, i < n → isInt16 (b i)) :
    (∑ i in Finset.range n, ((wrap32 (b i * b i) : Int) : ℝ))
      = ∑ i in Finset.range n, ((b i : ℝ)) ^ 2 := by
  apply Finset.sum_congr rfl
  intro i hi
  rw [wrap32_sq_of_isInt16 (h16 i (Finset.mem_range.mp hi))]
  push_cast
  ring

/-- The real sum of squares of a block of `n` `short` values lies between 0 and `n * 2^30`. -/
theorem sum_sq_bounds (b : Nat → Int) (n : Nat) (h16 : ∀ i, i < n → isInt16 (b i)) :
    0 ≤ ∑ i in Finset.range n, ((b i : ℝ)) ^ 2 ∧
    ∑ i in Finset.range n, ((b i : ℝ)) ^ 2 ≤ (n : ℝ) * 1073741824 := by
  constructor
  · exact Finset.sum_nonneg (fun i _ => sq_nonneg _)
  · have hle : ∀ i ∈ Finset.range n, ((b i : ℝ)) ^ 2 ≤ 1073741824 := by
      intro i hi
      have h := (sq_le_of_isInt16 (h16 i (Finset.mem_range.mp hi))).2
      have h2 : ((b i * b i : Int) : ℝ) ≤ ((1073741824 : Int) : ℝ) := Int.cast_le.mpr h
      push_cast at h2
      nlinarith
    calc ∑ i in Finset.range n, ((b i : ℝ)) ^ 2
        ≤ ∑ _i in Finset.range n, (1073741824 : ℝ) := Finset.sum_le_sum hle
      _ = (n : ℝ) * 1073741824 := by simp

/-- The value of every bar after a WAV read of `n > 0` `short` values, in real arithmetic. -/
theorem wav_bar_value (s : Session) (env : ReadEnv) (fr : Frame ℝ) (j : Fin MAX_BARS)
    (hm : s.mpg123 = none) (hs : s.sndFile ≠ none) (hn : 0 < env.wav.readCount)
    (h16 : ∀ i, i < env.wav.readCount.toNat → isInt16 (env.wav.buffer i)) :
    get_audio_intensities Real.sqrt s env fr j
      = Real.sqrt ((∑ i in Finset.range env.wav.readCount.toNat, ((env.wav.buffer i : ℝ)) ^ 2)
          / (env.wav.readCount : ℝ)) / 1000 := by
  rw [get_audio_intensities_wav_apply Real.sqrt s env fr j hm hs hn, sum_wrap32_sq_eq _ _ h16]

/-! ## Writing of the frame -/

/-- C1, as stated, fails: in a WAV session whose read returns the count 0, the frame after
the call still depends on the frame before the call, so the slots were not written. -/
theorem get_audio_intensities_not_always_written :
    ¬ ∀ (fr fr' : Frame ℝ) (j : Fin MAX_BARS),
        get_audio_intensities Real.sqrt wavSession eofEnv fr j
          = get_audio_intensities Real.sqrt wavSession eofEnv fr' j := by
  intro h
  have h1 := h (fun _ => 0) (fun _ => 1) ⟨0, by decide⟩
  rw [get_audio_intensities_wav_stall Real.sqrt wavSession eofEnv _ rfl (by decide),
    get_audio_intensities_wav_stall Real.sqrt wavSession eofEnv _ rfl (by decide)] at h1
  norm_num at h1

/-- C1, amended: when the MP3 handle is non-null, or the WAV handle is non-null and the read
count is positive, `get_audio_intensities` writes all 50 slots (the frame after the call
does not depend on the frame before it); in every other case (no handle, or a WAV read
count of zero or less) the frame is returned as it was received. -/
theorem get_audio_intensities_writes_all (s : Session) (env : ReadEnv) :
    ((s.mpg123 ≠ none ∨ (s.sndFile ≠ none ∧ 0 < env.wav.readCount)) →
      ∀ (fr fr' : Frame ℝ) (j : Fin MAX_BARS),
        get_audio_intensities Real.sqrt s env fr j
          = get_audio_intensities Real.sqrt s env fr' j) ∧
    (¬ (s.mpg123 ≠ none ∨ (s.sndFile ≠ none ∧ 0 < env.wav.readCount)) →
      ∀ fr : Frame ℝ, get_audio_intensities Real.sqrt s env fr = fr) := by
  constructor
  · intro h fr fr' j
    by_cases hm : s.mpg123 = none
    · rcases h with h | ⟨hs, hn⟩
      · exact absurd hm h
      · rw [get_audio_intensities_wav_apply Real.sqrt s env fr j hm hs hn,
          get_audio_intensities_wav_apply Real.sqrt s env fr' j hm hs hn]
    · rw [get_audio_intensities_mp3_apply Real.sqrt s env fr j hm,
        get_audio_intensities_mp3_apply Real.sqrt s env fr' j hm]
  · intro h fr
    rw [not_or, not_and_or] at h
    obtain ⟨hm, hs⟩ := h
    have hm' : s.mpg123 = none := not_not.mp hm
    rcases hs with hs | hn
    · exact get_audio_intensities_no_handle Real.sqrt s env fr hm' (not_not.mp hs)
    · exact get_audio_intensities_wav_stall Real.sqrt s env fr hm' (not_lt.mp hn)

/-- A WAV read of one sample overwrites the whole frame. -/
theorem get_audio_intensities_writes_all_witness :
    (wavSession.sndFile ≠ none ∧ 0 < (constWavEnv 1 5).wav.readCount) ∧
    ∀ (fr fr' : Frame ℝ) (j : Fin MAX_BARS),
      get_audio_intensities Real.sqrt wavSession (constWavEnv 1 5) fr j
        = get_audio_intensities Real.sqrt wavSession (constWavEnv 1 5) fr' j :=
  ⟨⟨by decide, by decide⟩,
    (get_audio_intensities_writes_all wavSession (constWavEnv 1 5)).1
      (Or.inr ⟨by decide, by decide⟩)⟩

/-! ## `init_audio` on failure paths -/

/-- C2: for the path `notes.txt`, which contains neither `.mp3` nor `.wav`, `init_audio`
returns the status 0 and leaves the module variables as they were, whatever the decoder
libraries would answer. -/
theorem init_audio_unrecognized_returns_zero :
    (¬ ".mp3".toList <:+: "notes.txt".toList) ∧ (¬ ".wav".toList <:+: "notes.txt".toList) ∧
    ∀ (env : DecoderEnv) (s : Session), init_audio "notes.txt" env s = (0, s) := by
  have h1 : ¬ ".mp3".toList <:+: "notes.txt".toList := by
    rw [← strstr_isSome_iff]; decide
  have h2 : ¬ ".wav".toList <:+: "notes.txt".toList := by
    rw [← strstr_isSome_iff]; decide
  exact ⟨h1, h2, fun env s => init_audio_no_known_extension "notes.txt" env s h1 h2⟩

/-- C3: called in the initial state for `song.mp3`, when `mpg123_new` yields a handle and
`mpg123_open` fails, `init_audio` returns -1 and the MP3 handle is non-null afterwards. -/
theorem init_audio_open_failure_keeps_handle :
    init_audio "song.mp3" openFailEnv Session.initial
      = (-1, { sndFile := none, mpg123 := some 1, channels := 0, rate := 0 }) := by
  decide

/-! ## End of stream -/

/-- C4: in an MP3 session, when `mpg123_read` reports the end of the stream with zero
bytes, a frame holding 1 in every slot holds 0 in every slot after the call. -/
theorem get_audio_intensities_mp3_eof_overwrites :
    get_audio_intensities Real.sqrt mp3Session eofEnv (fun _ => 1) = fun _ => 0 := by
  funext j
  rw [get_audio_intensities_mp3_apply Real.sqrt mp3Session eofEnv _ j (by decide)]
  have hw : wrap32 0 = 0 := by decide
  simp [eofEnv, hw]

/-! ## Values written for a WAV block -/

/-- Every bar written for a WAV block of `n > 0` `short` values lies between 0 and 32.768. -/
theorem wav_bar_bounds (s : Session) (env : ReadEnv) (fr : Frame ℝ) (j : Fin MAX_BARS)
    (hm : s.mpg123 = none) (hs : s.sndFile ≠ none) (hn : 0 < env.wav.readCount)
    (h16 : ∀ i, i < env.wav.readCount.toNat → isInt16 (env.wav.buffer i)) :
    0 ≤ get_audio_intensities Real.sqrt s env fr j ∧
    get_audio_intensities Real.sqrt s env fr j ≤ 32768 / 1000 := by
  rw [wav_bar_value s env fr j hm hs hn h16]
  obtain ⟨_, hub⟩ := sum_sq_bounds env.wav.buffer env.wav.readCount.toNat h16
  have hnR : (0 : ℝ) < (env.wav.readCount : ℝ) := Int.cast_pos.mpr hn
  have hcast : ((env.wav.readCount.toNat : Nat) : ℝ) = (env.wav.readCount : ℝ) := by
    have h := Int.toNat_of_nonneg hn.le
    exact_mod_cast h
  rw [hcast] at hub
  constructor
  · exact div_nonneg (Real.sqrt_nonneg _) (by norm_num)
  · have hq : (∑ i in Finset.range env.wav.readCount.toNat, ((env.wav.buffer i : ℝ)) ^ 2)
        / (env.wav.readCount : ℝ) ≤ (32768 : ℝ) ^ 2 := by
      rw [div_le_iff₀ hnR]
      nlinarith
    have hsq : Real.sqrt ((∑ i in Finset.range env.wav.readCount.toNat,
        ((env.wav.buffer i : ℝ)) ^ 2) / (env.wav.readCount : ℝ)) ≤ 32768 :=
      (Real.sqrt_le_left (by norm_num)).mpr hq
    exact div_le_div_of_nonneg_right hsq (by norm_num)

/-- C5: in a WAV session, for a block of `n` samples with `1 ≤ n ≤ 2048`, each a `short`
value, `get_audio_intensities` stores one and the same value in all 50 slots, namely
`sqrt((sum of sample_i^2 for i < n) / n) / 1000` in exact real arithmetic. -/
theorem get_audio_intensities_wav_rms (s : Session) (env : ReadEnv) (fr : Frame ℝ)
    (hm : s.mpg123 = none) (hs : s.sndFile ≠ none)
    (h1 : 1 ≤ env.wav.readCount) (h2 : env.wav.readCount ≤ 2048)
    (h16 : ∀ i, i < env.wav.readCount.toNat → isInt16 (env.wav.buffer i)) :
    ∀ j : Fin MAX_BARS,
      get_audio_intensities Real.sqrt s env fr j
        = Real.sqrt ((∑ i in Finset.range env.wav.readCount.toNat,
            ((env.wav.buffer i : ℝ)) ^ 2) / (env.wav.readCount : ℝ)) / 1000 := by
  intro j
  exact wav_bar_value s env fr j hm hs (by omega) h16

/-- The block of the two samples 3 and 4 yields `sqrt((3^2 + 4^2) / 2) / 1000` in every
slot. -/
theorem get_audio_intensities_wav_rms_witness :
    (1 ≤ twoSampleEnv.wav.readCount ∧ twoSampleEnv.wav.readCount ≤ 2048) ∧
    ∀ j : Fin MAX_BARS,
      get_audio_intensities Real.sqrt wavSession twoSampleEnv (fun _ => 0) j
        = Real.sqrt ((∑ i in Finset.range twoSampleEnv.wav.readCount.toNat,
            ((twoSampleEnv.wav.buffer i : ℝ)) ^ 2) / (twoSampleEnv.wav.readCount : ℝ)) / 1000 :=
  ⟨by decide,
    get_audio_intensities_wav_rms wavSession twoSampleEnv (fun _ => 0) rfl (by decide)
      (by decide) (by decide)
      (by
        intro i _
        show isInt16 (if i = 0 then 3 else 4)
        split <;> decide)⟩

/-- C6, as stated, fails: a WAV block of the single sample -32768 gives an intensity
above 1 (the value 32.768 in exact real arithmetic). -/
theorem wav_intensity_exceeds_one :
    ¬ (0 ≤ get_audio_intensities Real.sqrt wavSession (constWavEnv 1 (-32768)) (fun _ => 0)
            ⟨0, by decide⟩ ∧
        get_audio_intensities Real.sqrt wavSession (constWavEnv 1 (-32768)) (fun _ => 0)
            ⟨0, by decide⟩ ≤ 1) := by
  rw [wav_bar_value wavSession (constWavEnv 1 (-32768)) _ _ rfl (by decide) (by decide)
    (by intro i _; show isInt16 (-32768); decide)]
  have hv : (∑ i in Finset.range (constWavEnv 1 (-32768)).wav.readCount.toNat,
      (((constWavEnv 1 (-32768)).wav.buffer i : ℝ)) ^ 2)
        / ((constWavEnv 1 (-32768)).wav.readCount : ℝ) = (32768 : ℝ) ^ 2 := by
    simp [constWavEnv]
  rw [hv, Real.sqrt_sq (by norm_num)]
  norm_num

/-- C6, amended: in a WAV session, for a block of `n` samples with `1 ≤ n ≤ 2048`, each a
`short` value, each of the 50 intensities, computed in exact real arithmetic, lies in the
range from 0 to 32.768. -/
theorem wav_intensity_range (s : Session) (env : ReadEnv) (fr : Frame ℝ)
    (hm : s.mpg123 = none) (hs : s.sndFile ≠ none)
    (h1 : 1 ≤ env.wav.readCount) (h2 : env.wav.readCount ≤ 2048)
    (h16 : ∀ i, i < env.wav.readCount.toNat → isInt16 (env.wav.buffer i)) :
    ∀ j : Fin MAX_BARS,
      0 ≤ get_audio_intensities Real.sqrt s env fr j ∧
      get_audio_intensities Real.sqrt s env fr j ≤ 32768 / 1000 := by
  intro j
  exact wav_bar_bounds s env fr j hm hs (by omega) h16

/-- The block of the two samples 3 and 4 yields intensities between 0 and 32.768. -/
theorem wav_intensity_range_witness :
    (1 ≤ twoSampleEnv.wav.readCount ∧ twoSampleEnv.wav.readCount ≤ 2048) ∧
    ∀ j : Fin MAX_BARS,
      0 ≤ get_audio_intensities Real.sqrt wavSession twoSampleEnv (fun _ => 0) j ∧
      get_audio_intensities Real.sqrt wavSession twoSampleEnv (fun _ => 0) j ≤ 32768 / 1000 :=
  ⟨by decide,
    wav_intensity_range wavSession twoSampleEnv (fun _ => 0) rfl (by decide)
      (by decide) (by decide)
      (by
        intro i _
        show isInt16 (if i = 0 then 3 else 4)
        split <;> decide)⟩

/-! ## `cleanup_audio` and call sequences -/

/-- C7: from an MP3 session, `cleanup_audio` leaves the MP3 handle non-null, and a second
`cleanup_audio` right after closes and deletes the same handle once more. -/
theorem cleanup_audio_twice_releases_again :
    cleanup_audio mp3Session
      = (mp3Session, [LibCall.mpg123_close 1, LibCall.mpg123_delete 1, LibCall.mpg123_exit]) ∧
    (cleanup_audio mp3Session).1.mpg123 = some 1 ∧
    (cleanup_audio (cleanup_audio mp3Session).1).2
      = [LibCall.mpg123_close 1, LibCall.mpg123_delete 1, LibCall.mpg123_exit] := by
  decide

/-- C8: after a successful `init_audio` for `a.mp3` followed by a successful `init_audio`
for `b.wav`, both the MP3 handle and the WAV handle are non-null. -/
theorem run_init_twice_both_handles :
    run Session.initial [Op.init "a.mp3" okEnv, Op.init "b.wav" okEnv]
      = { sndFile := some 2, mpg123 := some 1, channels := 2, rate := 44100 } := by
  decide

/-! ## The MP3 path -/

/-- C9: in an MP3 session, when `mpg123_read` delivers 4096 zero bytes (silence) while the
local array `samples` holds 1000 in every entry, every slot of the frame receives 1 (in
exact real arithmetic), not 0;
and the frame is the same whatever `mpg123_read` delivers. -/
theorem get_audio_intensities_mp3_ignores_decoded_bytes :
    get_audio_intensities Real.sqrt mp3Session silenceEnv (fun _ => 0) = (fun _ => 1) ∧
    ∀ r : Mp3Read,
      get_audio_intensities Real.sqrt mp3Session { silenceEnv with mp3 := r } (fun _ => 0)
        = get_audio_intensities Real.sqrt mp3Session silenceEnv (fun _ => 0) := by
  constructor
  · funext j
    rw [get_audio_intensities_mp3_apply Real.sqrt mp3Session silenceEnv _ j (by decide)]
    have hw : wrap32 1000000 = 1000000 := by decide
    have hs : Real.sqrt 1000000 = 1000 := by
      rw [show (1000000 : ℝ) = 1000 ^ 2 by norm_num, Real.sqrt_sq (by norm_num)]
    simp [silenceEnv, hw, hs]
  · intro r
    funext j
    rw [get_audio_intensities_mp3_apply Real.sqrt mp3Session _ _ j (by decide),
      get_audio_intensities_mp3_apply Real.sqrt mp3Session silenceEnv _ j (by decide)]

/-! ## Overflow and range for a WAV block -/

/-- C10: in a WAV session, for a block of `n` samples with `1 ≤ n ≤ 2048`, each a `short`
value: every product `buffer[i] * buffer[i]` is computed without 32-bit overflow and is at
most `2^30`; the divisor `n` is not zero; every intensity written lies between 0 and 32.768;
and the value 32.768 is written when every sample is -32768. -/
theorem wav_block_no_overflow_and_bounds (s : Session) (env : ReadEnv) (fr : Frame ℝ)
    (hm : s.mpg123 = none) (hs : s.sndFile ≠ none)
    (h1 : 1 ≤ env.wav.readCount) (h2 : env.wav.readCount ≤ 2048)
    (h16 : ∀ i, i < env.wav.readCount.toNat → isInt16 (env.wav.buffer i)) :
    (∀ i, i < env.wav.readCount.toNat →
      wrap32 (env.wav.buffer i * env.wav.buffer i) = env.wav.buffer i * env.wav.buffer i ∧
      env.wav.buffer i * env.wav.buffer i ≤ 2 ^ 30) ∧
    (env.wav.readCount : ℝ) ≠ 0 ∧
    (∀ j : Fin MAX_BARS,
      0 ≤ get_audio_intensities Real.sqrt s env fr j ∧
      get_audio_intensities Real.sqrt s env fr j ≤ 32768 / 1000) ∧
    ((∀ i, i < env.wav.readCount.toNat → env.wav.buffer i = -32768) →
      ∀ j : Fin MAX_BARS, get_audio_intensities Real.sqrt s env fr j = 32768 / 1000) := by
  have hn : 0 < env.wav.readCount := by omega
  have hnR : (0 : ℝ) < (env.wav.readCount : ℝ) := Int.cast_pos.mpr hn
  refine ⟨?_, hnR.ne', ?_, ?_⟩
  · intro i hi
    refine ⟨wrap32_sq_of_isInt16 (h16 i hi), ?_⟩
    have h := (sq_le_of_isInt16 (h16 i hi)).2
    norm_num
    exact h
  · intro j
    exact wav_bar_bounds s env fr j hm hs hn h16
  · intro hall j
    rw [wav_bar_value s env fr j hm hs hn h16]
    have hsum : ∑ i in Finset.range env.wav.readCount.toNat, ((env.wav.buffer i : ℝ)) ^ 2
        = (env.wav.readCount : ℝ) * 32768 ^ 2 := by
      have hcast : ((env.wav.readCount.toNat : Nat) : ℝ) = (env.wav.readCount : ℝ) := by
        have h := Int.toNat_of_nonneg hn.le
        exact_mod_cast h
      have hconst : ∑ i in Finset.range env.wav.readCount.toNat, ((env.wav.buffer i : ℝ)) ^ 2
          = ∑ _i in Finset.range env.wav.readCount.toNat, (32768 : ℝ) ^ 2 := by
        apply Finset.sum_congr rfl
        intro i hi
        rw [hall i (Finset.mem_range.mp hi)]
        norm_num
      rw [hconst, Finset.sum_const, Finset.card_range, nsmul_eq_mul, hcast]
    rw [hsum, mul_div_cancel_left₀ _ hnR.ne', Real.sqrt_sq (by norm_num)]

/-- A block of three samples, each -32768, is within the stated bounds and reaches the
value 32.768. -/
theorem wav_block_no_overflow_and_bounds_witness :
    (∀ i, i < (constWavEnv 3 (-32768)).wav.readCount.toNat →
      wrap32 ((constWavEnv 3 (-32768)).wav.buffer i * (constWavEnv 3 (-32768)).wav.buffer i)
        = (constWavEnv 3 (-32768)).wav.buffer i * (constWavEnv 3 (-32768)).wav.buffer i ∧
      (constWavEnv 3 (-32768)).wav.buffer i * (constWavEnv 3 (-32768)).wav.buffer i ≤ 2 ^ 30) ∧
    ((constWavEnv 3 (-32768)).wav.readCount : ℝ) ≠ 0 ∧
    (∀ j : Fin MAX_BARS,
      0 ≤ get_audio_intensities Real.sqrt wavSession (constWavEnv 3 (-32768)) (fun _ => 0) j ∧
      get_audio_intensities Real.sqrt wavSession (constWavEnv 3 (-32768)) (fun _ => 0) j
        ≤ 32768 / 1000) ∧
    ((∀ i, i < (constWavEnv 3 (-32768)).wav.readCount.toNat →
        (constWavEnv 3 (-32768)).wav.buffer i = -32768) →
      ∀ j : Fin MAX_BARS,
        get_audio_intensities Real.sqrt wavSession (constWavEnv 3 (-32768)) (fun _ => 0) j
          = 32768 / 1000) :=
  wav_block_no_overflow_and_bounds wavSession (constWavEnv 3 (-32768)) (fun _ => 0) rfl
    (by decide) (by decide) (by decide)
    (by
      intro i _
      show isInt16 (-32768)
      decide)

end AudioViz
